import Mathlib

/-!
Verification of the Group identity/lookup/status core and the team-creation
endpoint of the sentry excerpt (`src/sentry/models/group.py`,
`src/sentry/models/groupredirect.py`,
`src/sentry/api/endpoints/organization_teams.py`).

Shallow embedding: Python functions become Lean functions; database `get`
calls become lookups over explicit lists of rows; timestamps are integers
(unix seconds); `math.log` becomes `Real.log`.
-/

namespace Sentry

/-! ## Character classes and Python string helpers

`_short_id_re = re.compile(r'^(.*?)(?:[\s_-])([A-Za-z0-9]+)$')` uses the
ASCII alphanumeric class, the separator class `[\s_-]`, and `.` (any char
except a newline).  `short_id.strip()` strips whitespace from both ends.
-/

/-- The whitespace characters recognised by `\s` / `str.strip` (ASCII part). -/
def isPySpace (c : Char) : Bool :=
  c == ' ' || c == '\t' || c == '\n' || c == '\r' || c == '\x0b' || c == '\x0c'

/-- The separator class `[\s_-]` of `_short_id_re`. -/
def isSepChar (c : Char) : Bool :=
  isPySpace c || c == '_' || c == '-'

/-- The class `[A-Za-z0-9]` of `_short_id_re`. -/
def isAsciiAlnum (c : Char) : Bool :=
  c.isAlpha || c.isDigit

/-- Python `str.strip()`: drop whitespace from both ends. -/
def pyStrip (cs : List Char) : List Char :=
  ((cs.dropWhile isPySpace).reverse.dropWhile isPySpace).reverse

/-- Python `str.upper()` (ASCII fragment). -/
def py_upper (s : String) : String := String.mk (s.data.map Char.toUpper)

/-- Python `str.isdigit()` (ASCII fragment): nonempty and all digits. -/
def py_isdigit (s : String) : Bool :=
  !s.isEmpty && s.data.all (fun c => c.isDigit)

/-- Python `int(...)` on a digit string. -/
def py_to_nat (s : String) : Nat :=
  s.data.foldl (fun a c => a * 10 + (c.toNat - 48)) 0

/-! ## The short-id regex

`^(.*?)(?:[\s_-])([A-Za-z0-9]+)$` matches iff the input decomposes as
`p ++ [sep] ++ tok` with `tok` a nonempty all-alphanumeric suffix, `sep` a
separator, and `p` free of `'\n'` (the one character `.` cannot match).
Because the token group must run to the end of the string and separator
characters are not alphanumeric, the decomposition is unique: `tok` is the
maximal alphanumeric suffix.  We scan from the right. -/

/-- Scan the reversed input: consume the alphanumeric token, then require a
separator.  Returns `(reversed prefix, token)`. -/
def revMatch : List Char → List Char → Option (List Char × List Char)
  | [], _ => none
  | c :: rest, acc =>
    if isAsciiAlnum c then revMatch rest (c :: acc)
    else if isSepChar c && !acc.isEmpty then some (rest, acc)
    else none

/-- The match of `_short_id_re` against `short_id.strip()`: returns the
capture groups (prefix, trailing token) when the regex matches. -/
def shortIdMatch (s : String) : Option (List Char × List Char) :=
  match revMatch (pyStrip s.data).reverse [] with
  | none => none
  | some (prevRev, tok) =>
    if prevRev.all (fun c => c != '\n') then some (prevRev.reverse, tok)
    else none

/-! ## Base32 codec

Modelled from the spec: `base32_encode` / `base32_decode`
(`sentry.utils.numbers`, not part of this excerpt) are a base-32 codec whose
alphabet matches the persisted IDs byte-for-byte; per the spec's examples the
digit `1` encodes as `"1"` (digits `0-9` come first), decoding is
case-insensitive and fails (`ValueError`) on characters outside the
alphabet. -/

/-- Modelled from the spec: the base32 alphabet, digits first. -/
def base32_alphabet : List Char := "0123456789ABCDEFGHJKMNPQRSTVWXYZ".data

/-- Modelled from the spec: numeral for a single base32 digit. -/
def base32_digit (d : Nat) : Char := base32_alphabet.getD d '0'

/-- Modelled from the spec: value of one input character
(case-insensitive; `none` = outside the alphabet, i.e. `ValueError`). -/
def base32_char_value (c : Char) : Option Nat :=
  base32_alphabet.findIdx? (fun a => a == c.toUpper)

/-- Modelled from the spec: one step of `base32_decode`. -/
def base32_decode_step (acc : Option Nat) (c : Char) : Option Nat := do
  let a ← acc
  let v ← base32_char_value c
  pure (a * 32 + v)

/-- Modelled from the spec: `base32_decode` (`ValueError` becomes `none`). -/
def base32_decode (cs : List Char) : Option Nat :=
  cs.foldl base32_decode_step (some 0)

/-- Modelled from the spec: `base32_encode`. -/
def base32_encode_core (n : Nat) : List Char :=
  if _h : n < 32 then [base32_digit n]
  else base32_encode_core (n / 32) ++ [base32_digit (n % 32)]
decreasing_by exact Nat.div_lt_self (by omega) (by omega)

/-- Modelled from the spec: `base32_encode`. -/
def base32_encode (n : Nat) : String := String.mk (base32_encode_core n)

/-! ## parse_short_id -/

/-- Modelled from the spec: the maximum representable value of the
`short_id` storage field (`BoundedBigIntegerField`, a signed 64-bit
integer column), `Group._meta.get_field_by_name('short_id')[0].MAX_VALUE`. -/
def SHORT_ID_MAX_VALUE : Nat := 9223372036854775807

/-- The `ShortId` namedtuple: `(project_slug, short_id)`. -/
structure ShortId where
  project_slug : String
  short_id : Nat
deriving DecidableEq, Repr

/-- `parse_short_id` from `group.py`: match the regex against the stripped
input, lower-case the slug group, base32-decode the trailing token, and fail
(return `none`) when decoding fails or the value overflows the field max. -/
def parse_short_id (s : String) : Option ShortId :=
  match shortIdMatch s with
  | none => none
  | some (slug, idTok) =>
    let slug := String.mk (slug.map Char.toLower)
    match base32_decode idTok with
    | none => none
    | some v => if v > SHORT_ID_MAX_VALUE then none else some ⟨slug, v⟩

example : parse_short_id "PROJECT-1" = some ⟨"project", 1⟩ := by decide
example : parse_short_id "a_b c-d1" = some ⟨"a_b c", 417⟩ := by decide
example : parse_short_id "abc" = none := by decide
example : parse_short_id "x-y-" = none := by decide

/-! ## GroupStatus constants (`class GroupStatus` in `group.py`) -/

namespace GroupStatus

def UNRESOLVED : Nat := 0

def RESOLVED : Nat := 1

def IGNORED : Nat := 2

def PENDING_DELETION : Nat := 3

def DELETION_IN_PROGRESS : Nat := 4

def PENDING_MERGE : Nat := 5

def MUTED : Nat := IGNORED

end GroupStatus

/-! ## The Group row

The fields of `class Group(Model)` that this core reads or writes.
Timestamps are unix seconds; nullable / possibly-unset fields are `Option`.
`project_slug` / `project_organization` stand for `project.slug` /
`project.organization` reached through the foreign key. -/

structure Group where
  id : Nat
  project_slug : String
  project_organization : Nat
  short_id : Option Nat
  status : Nat
  last_seen : Option Int
  first_seen : Option Int
  active_at : Option Int
  message : String
  times_seen : Option Nat
  score : ℝ

/-! ## Status resolution (`Group.get_status`, `Group.is_over_resolve_age`)

`snooze_valid` abstracts the `GroupSnooze` lookup: `none` means
`GroupSnooze.DoesNotExist`, `some b` means a snooze row exists and
`snooze.is_valid(group=self)` returned `b` (`GroupSnooze` is an external
entity per the spec; only its lookup result feeds this logic).
`resolve_age` is the project option `sentry:resolve_age` in hours
(`none` = unset; Python also treats a stored `0` as falsy). -/

/-- `Group.is_over_resolve_age`: false when no age is configured (`not
resolve_age` is true for `None` and `0`), otherwise compares `last_seen <
now - timedelta(hours=resolve_age)`. -/
def is_over_resolve_age (last_seen : Int) (resolve_age : Option Nat) (now : Int) : Bool :=
  match resolve_age with
  | none => false
  | some age => if age = 0 then false else decide (last_seen < now - (age : Int) * 3600)

/-- The snooze step of `Group.get_status`: a stored `IGNORED` status is
overridden to `UNRESOLVED` only when a snooze row exists and is no longer
valid (`GroupSnooze.DoesNotExist` is passed over). -/
def status_after_snooze (status : Nat) (snooze_valid : Option Bool) : Nat :=
  if status = GroupStatus.IGNORED then
    match snooze_valid with
    | none => status
    | some v => if v then status else GroupStatus.UNRESOLVED
  else status

/-- `Group.get_status`: the snooze step, then the auto-resolve step. -/
def get_status (status : Nat) (last_seen : Int) (snooze_valid : Option Bool)
    (resolve_age : Option Nat) (now : Int) : Nat :=
  let s := status_after_snooze status snooze_valid
  if s = GroupStatus.UNRESOLVED ∧ is_over_resolve_age last_seen resolve_age now then
    GroupStatus.RESOLVED
  else s

example : get_status GroupStatus.IGNORED 0 none none 0 = GroupStatus.IGNORED := by decide
example : get_status GroupStatus.IGNORED 0 (some false) none 0 = GroupStatus.UNRESOLVED := by
  decide
example : get_status GroupStatus.IGNORED 0 (some false) (some 1) 4000 = GroupStatus.RESOLVED := by
  decide

/-! ## Score (`Group.calculate_score`) and save (`Group.save`) -/

/-- `Group.calculate_score`: `math.log(float(times_seen or 1)) * 600 +
float(last_seen.strftime('%s'))`. -/
noncomputable def calculate_score (times_seen : Nat) (last_seen : Int) : ℝ :=
  Real.log (if times_seen = 0 then 1 else (times_seen : ℝ)) * 600 + (last_seen : ℝ)

/-- The score formula as §4.4 of the spec words it:
`log(max(times_seen, 1)) * 600 + unix_seconds(last_seen)`. -/
noncomputable def score_spec (times_seen : Nat) (last_seen : Int) : ℝ :=
  Real.log ((max times_seen 1 : Nat) : ℝ) * 600 + (last_seen : ℝ)

/-- Modelled from the spec: `strip` (`sentry.utils.strings`, not in this
excerpt) — whitespace-strip the message. -/
def strip (s : String) : String := String.mk (pyStrip s.data)

/-- The first line of a string (`splitlines()[0]` on a stripped, nonempty
string): everything before the first line break. -/
def firstLine (s : String) : String :=
  String.mk (s.data.takeWhile (fun c =>
    !(c == '\n' || c == '\r' || c == '\x0b' || c == '\x0c')))

/-- Modelled from the spec: `truncatechars` (`sentry.utils.strings`, not in
this excerpt) — truncate to at most the given number of characters. -/
def truncatechars (s : String) (n : Nat) : String := String.mk (s.data.take n)

/-- `Group.save`: default `last_seen` to now, `first_seen` to `last_seen`,
`active_at` to `first_seen`; strip the message and keep its first line
truncated to 255 chars; default `times_seen` to 1; recompute `score`. -/
noncomputable def Group.save (g : Group) (now : Int) : Group :=
  let last_seen := g.last_seen.getD now
  let first_seen := g.first_seen.getD last_seen
  let active_at := g.active_at.getD first_seen
  let message := strip g.message
  let message := if message ≠ "" then truncatechars (firstLine message) 255 else message
  let times_seen := g.times_seen.getD 1
  { g with
      last_seen := some last_seen
      first_seen := some first_seen
      active_at := some active_at
      message := message
      times_seen := some times_seen
      score := calculate_score times_seen last_seen }

/-- `Group.qualified_short_id`: `'%s-%s' % (project.slug.upper(),
base32_encode(short_id))`, `none` when `short_id` is unset. -/
def Group.qualified_short_id (g : Group) : Option String :=
  g.short_id.map (fun n => py_upper g.project_slug ++ "-" ++ base32_encode n)

/-! ## GroupRedirect (`groupredirect.py`) -/

structure GroupRedirect where
  group_id : Nat
  previous_group_id : Nat
  previous_short_id : Option Nat
  previous_project_slug : Option String

/-- `GroupRedirect.create_for_group`. -/
def GroupRedirect.create_for_group (from_group to_group : Group) : GroupRedirect :=
  { group_id := to_group.id
    previous_group_id := from_group.id
    previous_short_id := from_group.short_id
    previous_project_slug := some from_group.project_slug }

/-! ## Database point lookups

Django's `queryset.get(**params)` raises `DoesNotExist` on a miss and
`MultipleObjectsReturned` when more than one row matches; only the former is
caught by the lookup code. -/

inductive GetErr where
  | doesNotExist
  | multipleObjectsReturned
deriving DecidableEq, Repr

/-- `queryset.get(**params)` over an explicit list of rows. -/
def dbGet (p : Group → Bool) (groups : List Group) : Except GetErr Group :=
  match groups.filter p with
  | [] => .error .doesNotExist
  | [g] => .ok g
  | _ => .error .multipleObjectsReturned

/-! ## get_group_with_redirect -/

/-- The argument `id_or_qualified_short_id`: an `int`/`long` or a string. -/
inductive GroupLookupId where
  | byNum (n : Nat)
  | byStr (s : String)

/-- The `try getter / except DoesNotExist → redirect lookup / except →
raise original error` block of `get_group_with_redirect`:  `params` is the
direct lookup, `redirect_ids` the `group_id`s of the matching
`GroupRedirect` rows. -/
def try_with_redirect (params : Group → Bool) (redirect_ids : List Nat)
    (groups : List Group) : Except GetErr (Group × Bool) :=
  match dbGet params groups with
  | .ok g => .ok (g, false)
  | .error .multipleObjectsReturned => .error .multipleObjectsReturned
  | .error .doesNotExist =>
    match dbGet (fun g => redirect_ids.contains g.id) groups with
    | .ok g => .ok (g, true)
    | .error .doesNotExist => .error .doesNotExist
    | .error e => .error e

/-- `get_group_with_redirect`: numeric tokens look up by `id`; other tokens
go through `parse_short_id` (failing with `DoesNotExist` when parsing
fails) and look up by `(project__slug, short_id)`; on a miss the
`GroupRedirect` table supplies candidate ids for a second lookup, and a
second miss re-raises the original `DoesNotExist`. -/
def get_group_with_redirect (tok : GroupLookupId) (groups : List Group)
    (redirects : List GroupRedirect) : Except GetErr (Group × Bool) :=
  let numeric : Option Nat :=
    match tok with
    | .byNum n => some n
    | .byStr s => if py_isdigit s then some (py_to_nat s) else none
  match numeric with
  | some gid =>
    try_with_redirect (fun g => g.id == gid)
      ((redirects.filter (fun r => r.previous_group_id == gid)).map (·.group_id))
      groups
  | none =>
    match tok with
    | .byNum _ => .error .doesNotExist
    | .byStr s =>
      match parse_short_id s with
      | none => .error .doesNotExist
      | some sid =>
        try_with_redirect
          (fun g => g.project_slug == sid.project_slug && g.short_id == some sid.short_id)
          ((redirects.filter (fun r =>
            r.previous_short_id == some sid.short_id &&
            r.previous_project_slug == some sid.project_slug)).map (·.group_id))
          groups

/-! ## GroupManager.by_qualified_short_id -/

/-- `GroupManager.by_qualified_short_id`: parse the token (failing with
`DoesNotExist` on a parse failure), then `get` scoped to the organization
and excluding `PENDING_DELETION` / `DELETION_IN_PROGRESS` /
`PENDING_MERGE`. -/
def by_qualified_short_id (organization_id : Nat) (short_id : String)
    (groups : List Group) : Except GetErr Group :=
  match parse_short_id short_id with
  | none => .error .doesNotExist
  | some sid =>
    dbGet (fun g =>
      !(g.status == GroupStatus.PENDING_DELETION ||
        g.status == GroupStatus.DELETION_IN_PROGRESS ||
        g.status == GroupStatus.PENDING_MERGE) &&
      g.project_organization == organization_id &&
      g.project_slug == sid.project_slug &&
      g.short_id == some sid.short_id) groups

/-! ## Team creation endpoint (`organization_teams.py`) -/

def CONFLICTING_SLUG_ERROR : String := "A team with this slug already exists."

structure Team where
  name : String
  slug : String
  organization : Nat
deriving Repr

/-- The slug field's pattern `^[a-z0-9_\-]+$` (with `max_length=50`). -/
def team_slug_ok (s : String) : Bool :=
  !s.isEmpty && s.length ≤ 50 &&
    s.data.all (fun c => c.isLower || c.isDigit || c == '_' || c == '-')

/-- `TeamSerializer`: field validation (name ≤ 64 chars; slug matches the
pattern) followed by `validate`, which requires `name` or `slug` (Python
truthiness: absent or empty both fail). -/
def team_serializer_validate (name slug : Option String) :
    Except String (Option String × Option String) :=
  if (match name with | some nm => decide (nm.length > 64) | none => false) then
    .error "Ensure this field has no more than 64 characters."
  else if (match slug with | some s => !team_slug_ok s | none => false) then
    .error "Enter a valid slug consisting of lowercase letters, numbers, underscores or hyphens."
  else if name.getD "" = "" ∧ slug.getD "" = "" then
    .error "Name or slug is required"
  else .ok (name, slug)

/-- Modelled from the spec: slug auto-derivation from the name when no slug
is supplied (`Team` model save, not in this excerpt). -/
def slugify (s : String) : String :=
  String.mk (s.data.map (fun c => if isPySpace c then '-' else c.toLower))

inductive TeamsPostBody where
  | validationErrors (msg : String)
  | conflict (non_field_error detail : String)
  | created (team : Team)
deriving Repr

structure TeamsPostResponse where
  status : Nat
  body : TeamsPostBody
deriving Repr

/-- `OrganizationTeamsEndpoint.post`: 400 with the serializer errors when
validation fails; otherwise create the team (`name or slug` as the name,
the supplied slug or one derived from the name), answering 409 with the
fixed conflict message on a unique-constraint collision within the
organization, else 201 with the serialized team. -/
def organization_teams_post (name slug : Option String) (organization : Nat)
    (teams : List Team) : TeamsPostResponse :=
  match team_serializer_validate name slug with
  | .error e => ⟨400, .validationErrors e⟩
  | .ok (nm, sl) =>
    let team_name := match nm with
      | some x => if x ≠ "" then x else sl.getD ""
      | none => sl.getD ""
    let team_slug := match sl with
      | some s => s
      | none => slugify team_name
    if teams.any (fun t => t.organization == organization && t.slug == team_slug) then
      ⟨409, .conflict CONFLICTING_SLUG_ERROR CONFLICTING_SLUG_ERROR⟩
    else
      ⟨201, .created ⟨team_name, team_slug, organization⟩⟩

/-! ## Lemma layer: character classes -/

theorem pySpace_not_alnum (c : Char) (h : isPySpace c = true) : isAsciiAlnum c = false := by
  simp only [isPySpace, Bool.or_eq_true, beq_iff_eq] at h
  rcases h with ((((h | h) | h) | h) | h) | h <;> subst h <;> decide

theorem alnum_not_pySpace (c : Char) (h : isAsciiAlnum c = true) : isPySpace c = false := by
  cases hc : isPySpace c
  · rfl
  · rw [pySpace_not_alnum c hc] at h
    exact absurd h (by decide)

theorem sep_not_alnum (c : Char) (h : isSepChar c = true) : isAsciiAlnum c = false := by
  simp only [isSepChar, Bool.or_eq_true, beq_iff_eq] at h
  rcases h with (h | h) | h
  · exact pySpace_not_alnum c h
  · subst h; decide
  · subst h; decide

theorem alnum_ne_newline (c : Char) (h : isAsciiAlnum c = true) : c ≠ '\n' := by
  intro hc
  subst hc
  exact absurd h (by decide)

/-! ## Lemma layer: pyStrip -/

theorem dropWhile_eq_self_of_none (p : Char → Bool) (cs : List Char)
    (h : ∀ c ∈ cs, p c = false) : cs.dropWhile p = cs := by
  cases cs with
  | nil => rfl
  | cons c rest => simp [List.dropWhile, h c (List.mem_cons_self c rest)]

theorem pyStrip_eq_self (cs : List Char) (h : ∀ c ∈ cs, isPySpace c = false) :
    pyStrip cs = cs := by
  unfold pyStrip
  rw [dropWhile_eq_self_of_none _ _ h,
    dropWhile_eq_self_of_none _ _ (fun c hc => h c (List.mem_reverse.mp hc)),
    List.reverse_reverse]

/-! ## Lemma layer: base32 -/

theorem base32_digit_value (d : Nat) (h : d < 32) :
    base32_char_value (base32_digit d) = some d := by
  revert h
  revert d
  decide

theorem base32_digit_alnum (d : Nat) (h : d < 32) : isAsciiAlnum (base32_digit d) = true := by
  revert h
  revert d
  decide

theorem base32_encode_small (n : Nat) (h : n < 32) :
    base32_encode_core n = [base32_digit n] := by
  unfold base32_encode_core
  rw [dif_pos h]

theorem base32_encode_core_ne_nil (n : Nat) : base32_encode_core n ≠ [] := by
  unfold base32_encode_core
  split <;> simp

theorem base32_encode_core_alnum (n : Nat) :
    ∀ c ∈ base32_encode_core n, isAsciiAlnum c = true := by
  induction n using Nat.strong_induction_on with
  | _ n ih =>
    unfold base32_encode_core
    split
    · next h =>
      intro c hc
      simp only [List.mem_singleton] at hc
      subst hc
      exact base32_digit_alnum n h
    · next h =>
      intro c hc
      rw [List.mem_append] at hc
      rcases hc with hc | hc
      · exact ih (n / 32) (Nat.div_lt_self (by omega) (by omega)) c hc
      · simp only [List.mem_singleton] at hc
        subst hc
        exact base32_digit_alnum (n % 32) (Nat.mod_lt n (by omega))

theorem base32_decode_go (n : Nat) :
    ∀ a : Nat, List.foldl base32_decode_step (some a) (base32_encode_core n) =
      some (a * 32 ^ (base32_encode_core n).length + n) := by
  induction n using Nat.strong_induction_on with
  | _ n ih =>
    intro a
    unfold base32_encode_core
    split
    · next h =>
      simp [base32_decode_step, base32_digit_value n h]
    · next h =>
      rw [List.foldl_append, ih (n / 32) (Nat.div_lt_self (by omega) (by omega)) a]
      simp only [List.foldl_cons, List.foldl_nil, base32_decode_step,
        base32_digit_value (n % 32) (Nat.mod_lt n (by omega)), Option.bind_eq_bind,
        Option.some_bind, List.length_append, List.length_singleton]
      congr 1
      have hmod : 32 * (n / 32) + n % 32 = n := Nat.div_add_mod n 32
      have hpow : 32 ^ ((base32_encode_core (n / 32)).length + 1) =
          32 ^ (base32_encode_core (n / 32)).length * 32 := by
        rw [pow_succ]
      rw [hpow]
      calc (a * 32 ^ (base32_encode_core (n / 32)).length + n / 32) * 32 + n % 32
          = a * (32 ^ (base32_encode_core (n / 32)).length * 32) + (32 * (n / 32) + n % 32) := by
            ring
        _ = a * (32 ^ (base32_encode_core (n / 32)).length * 32) + n := by rw [hmod]

theorem base32_decode_encode (n : Nat) :
    base32_decode (base32_encode n).data = some n := by
  show base32_decode (base32_encode_core n) = some n
  unfold base32_decode
  rw [base32_decode_go n 0]
  simp

/-! ## Lemma layer: the regex match -/

theorem revMatch_alnum_append (rtok : List Char) :
    ∀ (rest acc : List Char), (∀ c ∈ rtok, isAsciiAlnum c = true) →
      revMatch (rtok ++ rest) acc = revMatch rest (rtok.reverse ++ acc) := by
  induction rtok with
  | nil => intro rest acc _; simp
  | cons c r ih =>
    intro rest acc h
    have hc : isAsciiAlnum c = true := h c (List.mem_cons_self c r)
    have h1 : revMatch ((c :: r) ++ rest) acc = revMatch (r ++ rest) (c :: acc) := by
      simp [revMatch, hc]
    rw [h1, ih rest (c :: acc) (fun x hx => h x (List.mem_cons_of_mem c hx))]
    simp

theorem shortIdMatch_of_decomp (s : String) (p tok : List Char) (sep : Char)
    (hs : pyStrip s.data = p ++ sep :: tok) (hsep : isSepChar sep = true)
    (htok : tok ≠ []) (halnum : ∀ c ∈ tok, isAsciiAlnum c = true)
    (hnl : ∀ c ∈ p, c ≠ '\n') :
    shortIdMatch s = some (p, tok) := by
  unfold shortIdMatch
  rw [hs]
  have hrev : (p ++ sep :: tok).reverse = tok.reverse ++ (sep :: p.reverse) := by
    simp
  rw [hrev, revMatch_alnum_append tok.reverse (sep :: p.reverse) []
    (fun c hc => halnum c (List.mem_reverse.mp hc))]
  simp only [List.reverse_reverse, List.append_nil]
  have hsepnal : isAsciiAlnum sep = false := sep_not_alnum sep hsep
  have hne : tok.isEmpty = false := by
    cases tok with
    | nil => exact absurd rfl htok
    | cons _ _ => rfl
  simp only [revMatch, hsepnal, Bool.false_eq_true, if_false, hsep, hne,
    Bool.not_false, Bool.and_self, if_true]
  have hall : p.reverse.all (fun c => c != '\n') = true := by
    rw [List.all_eq_true]
    intro c hc
    exact bne_iff_ne.mpr (hnl c (List.mem_reverse.mp hc))
  rw [hall]
  simp

/-! ## Lemma layer: parsing a qualified short id -/

theorem data_qualified (slug : String) (n : Nat) :
    (slug ++ "-" ++ base32_encode n).data = slug.data ++ '-' :: (base32_encode n).data := by
  rw [String.data_append, String.data_append, List.append_assoc]
  rfl

theorem parse_short_id_qualified (slug : String) (n : Nat)
    (hn : n ≤ SHORT_ID_MAX_VALUE)
    (hchars : ∀ c ∈ slug.data, isPySpace c = false ∧ c ≠ '\n') :
    parse_short_id (slug ++ "-" ++ base32_encode n) =
      some ⟨String.mk (slug.data.map Char.toLower), n⟩ := by
  have hdata := data_qualified slug n
  have hstrip : pyStrip (slug ++ "-" ++ base32_encode n).data =
      slug.data ++ '-' :: (base32_encode n).data := by
    rw [hdata]
    apply pyStrip_eq_self
    intro c hc
    rw [List.mem_append] at hc
    rcases hc with hc | hc
    · exact (hchars c hc).1
    · rcases List.mem_cons.mp hc with hc | hc
      · subst hc; decide
      · exact alnum_not_pySpace c (base32_encode_core_alnum n c hc)
  have hmatch : shortIdMatch (slug ++ "-" ++ base32_encode n) =
      some (slug.data, (base32_encode n).data) := by
    apply shortIdMatch_of_decomp _ _ _ '-' hstrip (by decide)
      (base32_encode_core_ne_nil n)
      (fun c hc => base32_encode_core_alnum n c hc)
      (fun c hc => (hchars c hc).2)
  unfold parse_short_id
  rw [hmatch]
  simp [base32_decode_encode n, Nat.not_lt.mpr hn]

theorem py_isdigit_qualified (slug : String) (n : Nat) :
    py_isdigit (slug ++ "-" ++ base32_encode n) = false := by
  unfold py_isdigit
  have hmem : '-' ∈ (slug ++ "-" ++ base32_encode n).data := by
    rw [data_qualified]
    exact List.mem_append_right _ (List.mem_cons_self _ _)
  have hall : (slug ++ "-" ++ base32_encode n).data.all (fun c => c.isDigit) = false := by
    rw [Bool.eq_false_iff]
    intro hall
    rw [List.all_eq_true] at hall
    exact absurd (hall '-' hmem) (by decide)
  rw [hall]
  simp

/-! ## Lemma layer: dbGet -/

theorem dbGet_ok (p : Group → Bool) (groups : List Group) (g : Group)
    (h : dbGet p groups = .ok g) : g ∈ groups ∧ p g = true := by
  unfold dbGet at h
  rcases hf : groups.filter p with - | ⟨x, - | ⟨y, rest⟩⟩ <;> rw [hf] at h
  · exact absurd h (by simp)
  · have hx : x = g := by
      simpa using h
    subst hx
    have : x ∈ groups.filter p := by
      rw [hf]; exact List.mem_singleton.mpr rfl
    exact ⟨(List.mem_filter.mp this).1, (List.mem_filter.mp this).2⟩
  · exact absurd h (by simp)

theorem dbGet_filter_nil (p : Group → Bool) (groups : List Group)
    (h : groups.filter p = []) : dbGet p groups = .error .doesNotExist := by
  unfold dbGet
  rw [h]

theorem dbGet_filter_singleton (p : Group → Bool) (groups : List Group) (g : Group)
    (h : groups.filter p = [g]) : dbGet p groups = .ok g := by
  unfold dbGet
  rw [h]

theorem is_over_resolve_age_none (last_seen now : Int) :
    is_over_resolve_age last_seen none now = false := rfl

theorem is_over_resolve_age_some (last_seen : Int) (age : Nat) (now : Int) :
    is_over_resolve_age last_seen (some age) now =
      (if age = 0 then false else decide (last_seen < now - (age : Int) * 3600)) := rfl

theorem alnum_not_sep (c : Char) (h : isAsciiAlnum c = true) : isSepChar c = false := by
  cases hc : isSepChar c
  · rfl
  · rw [sep_not_alnum c hc] at h
    exact absurd h (by simp)

theorem calculate_score_lt_of_times (m1 m2 : Nat) (ls : Int) (h1 : 0 < m1) (h2 : m1 < m2) :
    calculate_score m1 ls < calculate_score m2 ls := by
  unfold calculate_score
  rw [if_neg (by omega), if_neg (by omega)]
  have hlog : Real.log m1 < Real.log m2 :=
    Real.log_lt_log (by exact_mod_cast h1) (by exact_mod_cast h2)
  linarith

theorem calculate_score_lt_of_seen (m : Nat) (s2 s1 : Int) (h : s2 < s1) :
    calculate_score m s2 < calculate_score m s1 := by
  unfold calculate_score
  have hc : (s2 : ℝ) < (s1 : ℝ) := by exact_mod_cast h
  linarith

/-! ## Claims -/

/-- C1, counterexample: a group whose stored status is Ignored and that has
NO associated snooze record keeps effective status Ignored — `get_status`
passes over `GroupSnooze.DoesNotExist` and does not override to Unresolved,
contradicting the claim that an absent snooze forces Unresolved. -/
theorem claim_C1_counterexample :
    get_status GroupStatus.IGNORED 0 none none 0 = GroupStatus.IGNORED ∧
    GroupStatus.IGNORED ≠ GroupStatus.UNRESOLVED :=
  ⟨by decide, by decide⟩

/-- C1, amended: for a group stored Ignored, `get_status` overrides to
Unresolved (then subject to the auto-resolve rule) only when a snooze
record exists and is no longer valid; when no snooze record exists, or the
snooze is still valid, the effective status stays Ignored. -/
theorem claim_C1_amended (last_seen : Int) (ra : Option Nat) (now : Int) :
    get_status GroupStatus.IGNORED last_seen (some false) ra now =
      (if is_over_resolve_age last_seen ra now then GroupStatus.RESOLVED
       else GroupStatus.UNRESOLVED) ∧
    get_status GroupStatus.IGNORED last_seen none ra now = GroupStatus.IGNORED ∧
    get_status GroupStatus.IGNORED last_seen (some true) ra now = GroupStatus.IGNORED := by
  have h1 : status_after_snooze GroupStatus.IGNORED (some false) = GroupStatus.UNRESOLVED := by
    decide
  have h2 : status_after_snooze GroupStatus.IGNORED none = GroupStatus.IGNORED := by decide
  have h3 : status_after_snooze GroupStatus.IGNORED (some true) = GroupStatus.IGNORED := by
    decide
  refine ⟨?_, ?_, ?_⟩
  · unfold get_status
    rw [h1]
    by_cases hov : is_over_resolve_age last_seen ra now = true
    · rw [if_pos ⟨rfl, hov⟩, if_pos hov]
    · rw [if_neg (fun hand => hov hand.2), if_neg hov]
  · unfold get_status
    rw [h2, if_neg]
    rintro ⟨hc, -⟩
    exact absurd hc (by decide)
  · unfold get_status
    rw [h3, if_neg]
    rintro ⟨hc, -⟩
    exact absurd hc (by decide)

/-- C2: when the status after the snooze step is Unresolved, `get_status`
returns Resolved iff a nonzero auto-resolve age is configured and
`now - last_seen` exceeds it; with no configured age,
`is_over_resolve_age` is false and the group is never auto-resolved. -/
theorem claim_C2 (status : Nat) (last_seen : Int) (snooze : Option Bool)
    (ra : Option Nat) (now : Int)
    (h : status_after_snooze status snooze = GroupStatus.UNRESOLVED) :
    (get_status status last_seen snooze ra now = GroupStatus.RESOLVED ↔
      ∃ age, ra = some age ∧ 0 < age ∧ now - last_seen > (age : Int) * 3600) ∧
    (ra = none →
      is_over_resolve_age last_seen ra now = false ∧
      get_status status last_seen snooze ra now = GroupStatus.UNRESOLVED) := by
  constructor
  · constructor
    · intro hr
      unfold get_status at hr
      rw [h] at hr
      by_cases hov : is_over_resolve_age last_seen ra now = true
      · cases ra with
        | none => exact absurd hov (by simp [is_over_resolve_age_none])
        | some age =>
          rw [is_over_resolve_age_some] at hov
          by_cases ha : age = 0
          · rw [if_pos ha] at hov
            exact absurd hov (by simp)
          · rw [if_neg ha] at hov
            refine ⟨age, rfl, by omega, ?_⟩
            have := of_decide_eq_true hov
            omega
      · rw [if_neg (fun hand => hov hand.2)] at hr
        exact absurd hr (by decide)
    · rintro ⟨age, rfl, hpos, hgt⟩
      unfold get_status
      rw [h]
      have hov : is_over_resolve_age last_seen (some age) now = true := by
        rw [is_over_resolve_age_some, if_neg (by omega)]
        exact decide_eq_true (by omega)
      rw [if_pos ⟨rfl, hov⟩]
  · rintro rfl
    refine ⟨rfl, ?_⟩
    unfold get_status
    rw [h, if_neg]
    rintro ⟨-, hov⟩
    rw [is_over_resolve_age_none] at hov
    exact absurd hov (by simp)

/-- C2 witness: stored Unresolved, age 1 hour configured, last_seen 3601
seconds before now. -/
theorem claim_C2_witness :
    (get_status 0 0 none (some 1) 3601 = GroupStatus.RESOLVED ↔
      ∃ age, (some 1 : Option Nat) = some age ∧ 0 < age ∧
        (3601 : Int) - 0 > (age : Int) * 3600) ∧
    ((some 1 : Option Nat) = none →
      is_over_resolve_age 0 (some 1) 3601 = false ∧
      get_status 0 0 none (some 1) 3601 = GroupStatus.UNRESOLVED) :=
  claim_C2 0 0 none (some 1) 3601 (by decide)

/-- C5: a token whose trailing segment base32-decodes to a value strictly
above the short_id field maximum parses to `none`, the same result as a
token the grammar does not match (and `parse_short_id` is a total
function — no exception escapes). -/
theorem claim_C5 :
    (∀ s p tok v, shortIdMatch s = some (p, tok) → base32_decode tok = some v →
      v > SHORT_ID_MAX_VALUE → parse_short_id s = none) ∧
    (∀ s, shortIdMatch s = none → parse_short_id s = none) := by
  constructor
  · intro s p tok v h1 h2 h3
    unfold parse_short_id
    rw [h1]
    simp [h2, h3]
  · intro s h
    unfold parse_short_id
    rw [h]

/-- C5 witness: thirteen `Z`s decode to `32^13 - 1 > 2^63 - 1`. -/
theorem claim_C5_witness : parse_short_id "A-ZZZZZZZZZZZZZ" = none :=
  claim_C5.1 "A-ZZZZZZZZZZZZZ" "A".data "ZZZZZZZZZZZZZ".data 36893488147419103231
    (by decide) (by decide) (by decide)

/-- C6: whenever the stripped input decomposes as prefix ++ separator ++
nonempty alphanumeric token (the prefix free of newlines), the regex match
splits exactly there: the trailing token is the encoded-id group — it can
contain no further separator, so the split is at the last separator run —
and everything before it, separators included, is the slug group. -/
theorem claim_C6 (s : String) (p tok : List Char) (sep : Char)
    (hs : pyStrip s.data = p ++ sep :: tok) (hsep : isSepChar sep = true)
    (htok : tok ≠ []) (halnum : ∀ c ∈ tok, isAsciiAlnum c = true)
    (hnl : ∀ c ∈ p, c ≠ '\n') :
    shortIdMatch s = some (p, tok) ∧ ∀ c ∈ tok, isSepChar c = false :=
  ⟨shortIdMatch_of_decomp s p tok sep hs hsep htok halnum hnl,
   fun c hc => alnum_not_sep c (halnum c hc)⟩

/-- C6 witness: `"a_b c-d1"` — the prefix itself contains an underscore
and a space; the match still splits at the final hyphen. -/
theorem claim_C6_witness :
    shortIdMatch "a_b c-d1" = some ("a_b c".data, "d1".data) ∧
    ∀ c ∈ "d1".data, isSepChar c = false :=
  claim_C6 "a_b c-d1" "a_b c".data "d1".data '-' (by decide) (by decide) (by decide)
    (by decide) (by decide)

/-- C7: on every grammar match whose token decodes in range,
`parse_short_id` returns the slug group lower-cased with the decoded id;
in particular `parse_short_id "PROJECT-1" = ("project", 1)`. -/
theorem claim_C7 :
    (∀ s p tok n, shortIdMatch s = some (p, tok) → base32_decode tok = some n →
      n ≤ SHORT_ID_MAX_VALUE →
      parse_short_id s = some ⟨String.mk (p.map Char.toLower), n⟩) ∧
    parse_short_id "PROJECT-1" = some ⟨"project", 1⟩ := by
  constructor
  · intro s p tok n h1 h2 h3
    unfold parse_short_id
    rw [h1]
    simp [h2, Nat.not_lt.mpr h3]
  · decide

/-- C7 witness: a mixed-case slug is lower-cased. -/
theorem claim_C7_witness : parse_short_id "AbC-2" = some ⟨"abc", 2⟩ :=
  claim_C7.1 "AbC-2" "AbC".data "2".data 2 (by decide) (by decide) (by decide)

/-- C8: `calculate_score` equals the spec formula
`log(max(times_seen,1)) * 600 + unix_seconds(last_seen)` and is strictly
monotone in each argument. -/
theorem claim_C8 (n : Nat) (t t1 t2 : Int) (h : t2 < t1) :
    (∀ m ls, calculate_score m ls = score_spec m ls) ∧
    calculate_score 100 t > calculate_score 10 t ∧
    calculate_score 10 t > calculate_score 1 t ∧
    calculate_score n t1 > calculate_score n t2 := by
  refine ⟨?_, ?_, ?_, calculate_score_lt_of_seen n t2 t1 h⟩
  · intro m ls
    unfold calculate_score score_spec
    have harg : (if m = 0 then (1 : ℝ) else (m : ℝ)) = ((max m 1 : ℕ) : ℝ) := by
      cases m with
      | zero => simp
      | succ k => simp [Nat.max_eq_left (Nat.succ_le_succ (Nat.zero_le k))]
    rw [harg]
  · exact calculate_score_lt_of_times 10 100 t (by norm_num) (by norm_num)
  · exact calculate_score_lt_of_times 1 10 t (by norm_num) (by norm_num)

/-- C8 witness at `n = 3`, `t = 0`, `t1 = 1`, `t2 = 0`. -/
theorem claim_C8_witness :
    (∀ m ls, calculate_score m ls = score_spec m ls) ∧
    calculate_score 100 0 > calculate_score 10 0 ∧
    calculate_score 10 0 > calculate_score 1 0 ∧
    calculate_score 3 1 > calculate_score 3 0 :=
  claim_C8 3 0 1 0 (by decide)

/-- C4: on every save, an unset `last_seen` becomes the current time, an
unset `first_seen` defaults to `last_seen`, an unset `active_at` defaults
to `first_seen`, the message is whitespace-stripped and reduced to its
first line truncated to 255 characters, an unset `times_seen` defaults to
1, and `score` is recomputed from `times_seen` and `last_seen`. -/
theorem claim_C4 (g : Group) (now : Int) :
    (g.last_seen = none → (Group.save g now).last_seen = some now) ∧
    (g.first_seen = none → (Group.save g now).first_seen = (Group.save g now).last_seen) ∧
    (g.active_at = none → (Group.save g now).active_at = (Group.save g now).first_seen) ∧
    (Group.save g now).message = truncatechars (firstLine (strip g.message)) 255 ∧
    (g.times_seen = none → (Group.save g now).times_seen = some 1) ∧
    (Group.save g now).score =
      calculate_score (g.times_seen.getD 1) (g.last_seen.getD now) := by
  refine ⟨?_, ?_, ?_, ?_, ?_, rfl⟩
  · intro h
    show some (g.last_seen.getD now) = some now
    rw [h]
    rfl
  · intro h
    show some (g.first_seen.getD (g.last_seen.getD now)) = some (g.last_seen.getD now)
    rw [h]
    rfl
  · intro h
    show some (g.active_at.getD (g.first_seen.getD (g.last_seen.getD now))) =
      some (g.first_seen.getD (g.last_seen.getD now))
    rw [h]
    rfl
  · show (if strip g.message ≠ "" then truncatechars (firstLine (strip g.message)) 255
        else strip g.message) = truncatechars (firstLine (strip g.message)) 255
    by_cases hm : strip g.message = ""
    · rw [if_neg (by simp [hm]), hm]
      decide
    · rw [if_pos hm]
  · intro h
    show some (g.times_seen.getD 1) = some 1
    rw [h]
    rfl

/-- C4 witness: a fresh group with all defaultable fields unset and a
multi-line, padded message, saved at time 7. -/
theorem claim_C4_witness :
    (Group.save ⟨1, "p", 1, none, 0, none, none, none, " hi\nthere ", none, 0⟩ 7).last_seen =
      some 7 ∧
    (Group.save ⟨1, "p", 1, none, 0, none, none, none, " hi\nthere ", none, 0⟩ 7).times_seen =
      some 1 :=
  ⟨(claim_C4 ⟨1, "p", 1, none, 0, none, none, none, " hi\nthere ", none, 0⟩ 7).1 rfl,
   (claim_C4 ⟨1, "p", 1, none, 0, none, none, none, " hi\nthere ", none, 0⟩ 7).2.2.2.2.1 rfl⟩

/-! Helper lemmas for the lookup claims. -/

theorem contains_singleton (a b : Nat) : [b].contains a = (a == b) := by
  cases hab : a == b
  · simpa [List.contains, hab, beq_iff_eq] using (by simpa [beq_iff_eq] using hab : ¬ a = b)
  · simp [List.contains, beq_iff_eq] at hab ⊢
    exact hab

theorem try_with_redirect_hit (params : Group → Bool) (ids : List Nat)
    (groups : List Group) (g : Group) (h : groups.filter params = [g]) :
    try_with_redirect params ids groups = .ok (g, false) := by
  unfold try_with_redirect
  rw [dbGet_filter_singleton _ _ _ h]

theorem try_with_redirect_miss_hit (params : Group → Bool) (ids : List Nat)
    (groups : List Group) (g : Group) (h1 : groups.filter params = [])
    (h2 : groups.filter (fun x => ids.contains x.id) = [g]) :
    try_with_redirect params ids groups = .ok (g, true) := by
  unfold try_with_redirect
  rw [dbGet_filter_nil _ _ h1, dbGet_filter_singleton _ _ _ h2]

theorem try_with_redirect_miss_miss (params : Group → Bool) (ids : List Nat)
    (groups : List Group) (h1 : groups.filter params = [])
    (h2 : groups.filter (fun x => ids.contains x.id) = []) :
    try_with_redirect params ids groups = .error .doesNotExist := by
  unfold try_with_redirect
  rw [dbGet_filter_nil _ _ h1, dbGet_filter_nil _ _ h2]

theorem qualified_short_id_eq (g : Group) (n : Nat) (hsid : g.short_id = some n) :
    g.qualified_short_id = some (py_upper g.project_slug ++ "-" ++ base32_encode n) := by
  unfold Group.qualified_short_id
  rw [hsid]
  rfl

theorem get_group_with_redirect_byNum (k : Nat) (groups : List Group)
    (redirects : List GroupRedirect) :
    get_group_with_redirect (.byNum k) groups redirects =
      try_with_redirect (fun g => g.id == k)
        ((redirects.filter (fun r => r.previous_group_id == k)).map (·.group_id))
        groups := rfl

theorem get_group_with_redirect_byStr_parsed (s : String) (groups : List Group)
    (redirects : List GroupRedirect) (sid : ShortId)
    (hdig : py_isdigit s = false) (hp : parse_short_id s = some sid) :
    get_group_with_redirect (.byStr s) groups redirects =
      try_with_redirect
        (fun g => g.project_slug == sid.project_slug && g.short_id == some sid.short_id)
        ((redirects.filter (fun r =>
          r.previous_short_id == some sid.short_id &&
          r.previous_project_slug == some sid.project_slug)).map (·.group_id))
        groups := by
  unfold get_group_with_redirect
  simp only [hdig, Bool.false_eq_true, if_false, hp]

/-- C3: after `GroupRedirect.create_for_group(A, B)`, looking up A's old
numeric id or A's old qualified short id yields `(B, redirected = true)`,
looking up B's own id yields `(B, redirected = false)`, and a token that
misses both the direct lookup and the redirect table fails with the
original `DoesNotExist` (the model's only not-found error — there is no
redirect-specific one). -/
theorem claim_C3 (A B : Group) (groups : List Group) (n : Nat)
    (hsid : A.short_id = some n)
    (hn : n ≤ SHORT_ID_MAX_VALUE)
    (hchars : ∀ c ∈ (py_upper A.project_slug).data, isPySpace c = false ∧ c ≠ '\n')
    (hlower : String.mk ((py_upper A.project_slug).data.map Char.toLower) = A.project_slug)
    (hAid : groups.filter (fun g => g.id == A.id) = [])
    (hAsid : groups.filter (fun g =>
      g.project_slug == A.project_slug && g.short_id == some n) = [])
    (hB : groups.filter (fun g => g.id == B.id) = [B]) :
    get_group_with_redirect (.byNum A.id) groups [GroupRedirect.create_for_group A B] =
      .ok (B, true) ∧
    (∀ qs, A.qualified_short_id = some qs →
      get_group_with_redirect (.byStr qs) groups [GroupRedirect.create_for_group A B] =
        .ok (B, true)) ∧
    get_group_with_redirect (.byNum B.id) groups [GroupRedirect.create_for_group A B] =
      .ok (B, false) ∧
    (∀ m, groups.filter (fun g => g.id == m) = [] → (m == A.id) = false →
      get_group_with_redirect (.byNum m) groups [GroupRedirect.create_for_group A B] =
        .error .doesNotExist) := by
  have hcontains : ∀ (b : Nat), groups.filter (fun x => [b].contains x.id) =
      groups.filter (fun x => x.id == b) :=
    fun b => List.filter_congr (fun x _ => contains_singleton x.id b)
  have hmap : [GroupRedirect.create_for_group A B].map (·.group_id) = [B.id] := rfl
  refine ⟨?_, ?_, ?_, ?_⟩
  · rw [get_group_with_redirect_byNum]
    have hf : [GroupRedirect.create_for_group A B].filter
        (fun r => r.previous_group_id == A.id) = [GroupRedirect.create_for_group A B] := by
      simp [GroupRedirect.create_for_group]
    rw [hf, hmap]
    exact try_with_redirect_miss_hit _ _ _ _ hAid (by rw [hcontains B.id]; exact hB)
  · intro qs hqs
    unfold Group.qualified_short_id at hqs
    rw [hsid] at hqs
    simp only [Option.map_some'] at hqs
    injection hqs with hqs
    subst hqs
    have hdig : py_isdigit ((py_upper A.project_slug) ++ "-" ++ base32_encode n) = false :=
      py_isdigit_qualified (py_upper A.project_slug) n
    have hparse : parse_short_id ((py_upper A.project_slug) ++ "-" ++ base32_encode n) =
        some ⟨A.project_slug, n⟩ := by
      rw [parse_short_id_qualified (py_upper A.project_slug) n hn hchars, hlower]
    rw [get_group_with_redirect_byStr_parsed _ _ _ ⟨A.project_slug, n⟩ hdig hparse]
    have hf : [GroupRedirect.create_for_group A B].filter (fun r =>
        r.previous_short_id == some (ShortId.mk A.project_slug n).short_id &&
        r.previous_project_slug == some (ShortId.mk A.project_slug n).project_slug) =
        [GroupRedirect.create_for_group A B] := by
      simp [GroupRedirect.create_for_group, hsid]
    rw [hf, hmap]
    exact try_with_redirect_miss_hit _ _ _ _ hAsid (by rw [hcontains B.id]; exact hB)
  · rw [get_group_with_redirect_byNum]
    exact try_with_redirect_hit _ _ _ _ hB
  · intro m hm hmA
    rw [get_group_with_redirect_byNum]
    have hf : [GroupRedirect.create_for_group A B].filter
        (fun r => r.previous_group_id == m) = [] := by
      simp only [GroupRedirect.create_for_group, List.filter_eq_nil_iff]
      intro r hr
      rw [List.mem_singleton] at hr
      subst hr
      show ¬ (A.id == m) = true
      intro hc
      rw [beq_iff_eq] at hc
      rw [hc] at hmA
      simp at hmA
    rw [hf]
    apply try_with_redirect_miss_miss _ _ _ hm
    apply List.filter_eq_nil_iff.mpr
    intro g _
    simp [List.contains]

/-- C3 witness: dead group 1 (short id 5 in project `proj`) redirected to
surviving group 2; the store holds only group 2. -/
theorem claim_C3_witness :
    get_group_with_redirect (.byStr "PROJ-5")
      [⟨2, "proj", 1, some 9, 0, none, none, none, "", none, 0⟩]
      [GroupRedirect.create_for_group
        ⟨1, "proj", 1, some 5, 0, none, none, none, "", none, 0⟩
        ⟨2, "proj", 1, some 9, 0, none, none, none, "", none, 0⟩] =
      .ok (⟨2, "proj", 1, some 9, 0, none, none, none, "", none, 0⟩, true) :=
  (claim_C3 ⟨1, "proj", 1, some 5, 0, none, none, none, "", none, 0⟩
    ⟨2, "proj", 1, some 9, 0, none, none, none, "", none, 0⟩
    [⟨2, "proj", 1, some 9, 0, none, none, none, "", none, 0⟩] 5
    rfl (by decide) (by decide) (by decide) rfl rfl rfl).2.1 "PROJ-5"
    (by
      rw [qualified_short_id_eq _ 5 rfl]
      show some (py_upper "proj" ++ "-" ++ String.mk (base32_encode_core 5)) = some "PROJ-5"
      rw [base32_encode_small 5 (by decide)]
      decide)

/-- C9: `by_qualified_short_id` never returns a group in
PendingDeletion / DeletionInProgress / PendingMerge, and for a group in one
of those states the lookup by its own qualified short id inside its
organization fails with `DoesNotExist`. -/
theorem claim_C9 (org : Nat) (g : Group) (groups : List Group) (n : Nat)
    (hsid : g.short_id = some n) (hn : n ≤ SHORT_ID_MAX_VALUE)
    (hchars : ∀ c ∈ (py_upper g.project_slug).data, isPySpace c = false ∧ c ≠ '\n')
    (hlower : String.mk ((py_upper g.project_slug).data.map Char.toLower) = g.project_slug)
    (hbad : g.status = GroupStatus.PENDING_DELETION ∨
      g.status = GroupStatus.DELETION_IN_PROGRESS ∨ g.status = GroupStatus.PENDING_MERGE)
    (huniq : ∀ g' ∈ groups, g'.project_organization = org →
      g'.project_slug = g.project_slug → g'.short_id = some n → g' = g) :
    (∀ org' tok gs g', by_qualified_short_id org' tok gs = .ok g' →
      g'.status ≠ GroupStatus.PENDING_DELETION ∧
      g'.status ≠ GroupStatus.DELETION_IN_PROGRESS ∧
      g'.status ≠ GroupStatus.PENDING_MERGE) ∧
    (∀ qs, g.qualified_short_id = some qs →
      by_qualified_short_id org qs groups = .error .doesNotExist) := by
  constructor
  · intro org' tok gs g' h
    unfold by_qualified_short_id at h
    cases hp : parse_short_id tok with
    | none =>
      rw [hp] at h
      exact absurd h (by simp)
    | some sid =>
      rw [hp] at h
      have hpred := (dbGet_ok _ _ _ h).2
      simp only [Bool.and_eq_true, Bool.not_eq_true', Bool.or_eq_false_iff,
        beq_eq_false_iff_ne] at hpred
      exact ⟨hpred.1.1.1.1.1, hpred.1.1.1.1.2, hpred.1.1.1.2⟩
  · intro qs hqs
    unfold Group.qualified_short_id at hqs
    rw [hsid] at hqs
    simp only [Option.map_some'] at hqs
    injection hqs with hqs
    subst hqs
    have hparse : parse_short_id ((py_upper g.project_slug) ++ "-" ++ base32_encode n) =
        some ⟨g.project_slug, n⟩ := by
      rw [parse_short_id_qualified (py_upper g.project_slug) n hn hchars, hlower]
    unfold by_qualified_short_id
    rw [hparse]
    apply dbGet_filter_nil
    apply List.filter_eq_nil_iff.mpr
    intro g' hg' hpred
    simp only [Bool.and_eq_true, Bool.not_eq_true', Bool.or_eq_false_iff,
      beq_eq_false_iff_ne, beq_iff_eq] at hpred
    obtain ⟨⟨⟨⟨⟨hs3, hs4⟩, hs5⟩, horg⟩, hslug⟩, hsid'⟩ := hpred
    have hg : g' = g := huniq g' hg' horg hslug hsid'
    subst hg
    rcases hbad with hb | hb | hb
    · exact hs3 hb
    · exact hs4 hb
    · exact hs5 hb

/-- C9 witness: a single group with status PendingDeletion; looking it up
by `PROJ-5` in its organization misses. -/
theorem claim_C9_witness :
    by_qualified_short_id 1 "PROJ-5"
      [⟨1, "proj", 1, some 5, 3, none, none, none, "", none, 0⟩] =
      .error .doesNotExist :=
  (claim_C9 1 ⟨1, "proj", 1, some 5, 3, none, none, none, "", none, 0⟩
    [⟨1, "proj", 1, some 5, 3, none, none, none, "", none, 0⟩] 5 rfl (by decide) (by decide)
    (by decide) (Or.inl rfl)
    (fun g' hg' _ _ _ => List.mem_singleton.mp hg')).2 "PROJ-5"
    (by
      rw [qualified_short_id_eq _ 5 rfl]
      show some (py_upper "proj" ++ "-" ++ String.mk (base32_encode_core 5)) = some "PROJ-5"
      rw [base32_encode_small 5 (by decide)]
      decide)

/-- The team name the endpoint stores: `result.get('name') or
result['slug']`, for a request that supplied the slug `s`. -/
def team_name_of (name : Option String) (s : String) : String :=
  match name with
  | some x => if x ≠ "" then x else s
  | none => s

theorem organization_teams_post_ok_slug (name : Option String) (s : String) (org : Nat)
    (teams : List Team)
    (h : team_serializer_validate name (some s) = .ok (name, some s)) :
    organization_teams_post name (some s) org teams =
      if teams.any (fun t => t.organization == org && t.slug == s) then
        ⟨409, .conflict CONFLICTING_SLUG_ERROR CONFLICTING_SLUG_ERROR⟩
      else
        ⟨201, .created ⟨team_name_of name s, s, org⟩⟩ := by
  unfold organization_teams_post
  rw [h]
  cases name with
  | none => rfl
  | some x => rfl

/-- C10: a body with neither name nor slug fails validation with 400; a
slug colliding with an existing team of the same organization answers 409
carrying the fixed conflict message; a valid, collision-free request
answers 201 with the created team. -/
theorem claim_C10 :
    (∀ org teams, organization_teams_post none none org teams =
      ⟨400, .validationErrors "Name or slug is required"⟩) ∧
    (∀ name s org teams,
      team_serializer_validate name (some s) = .ok (name, some s) →
      (∃ t ∈ teams, t.organization = org ∧ t.slug = s) →
      organization_teams_post name (some s) org teams =
        ⟨409, .conflict CONFLICTING_SLUG_ERROR CONFLICTING_SLUG_ERROR⟩) ∧
    (∀ name s org teams,
      team_serializer_validate name (some s) = .ok (name, some s) →
      (∀ t ∈ teams, ¬(t.organization = org ∧ t.slug = s)) →
      organization_teams_post name (some s) org teams =
        ⟨201, .created ⟨team_name_of name s, s, org⟩⟩) := by
  refine ⟨fun org teams => rfl, ?_, ?_⟩
  · intro name s org teams h hcol
    rw [organization_teams_post_ok_slug _ _ _ _ h]
    have hany : teams.any (fun t => t.organization == org && t.slug == s) = true := by
      rw [List.any_eq_true]
      obtain ⟨t, ht, h1, h2⟩ := hcol
      exact ⟨t, ht, by simp [h1, h2]⟩
    rw [hany]
    rfl
  · intro name s org teams h hcol
    rw [organization_teams_post_ok_slug _ _ _ _ h]
    have hany : teams.any (fun t => t.organization == org && t.slug == s) = false := by
      rw [Bool.eq_false_iff]
      intro hc
      rw [List.any_eq_true] at hc
      obtain ⟨t, ht, hp⟩ := hc
      rw [Bool.and_eq_true, beq_iff_eq, beq_iff_eq] at hp
      exact hcol t ht hp
    rw [hany]
    rfl

/-- C10 witness: collision on slug `x` in organization 7; success with
fresh slug `y`. -/
theorem claim_C10_witness :
    organization_teams_post none (some "x") 7 [⟨"t", "x", 7⟩] =
      ⟨409, .conflict CONFLICTING_SLUG_ERROR CONFLICTING_SLUG_ERROR⟩ ∧
    organization_teams_post none (some "y") 7 [⟨"t", "x", 7⟩] =
      ⟨201, .created ⟨"y", "y", 7⟩⟩ :=
  ⟨claim_C10.2.1 none "x" 7 [⟨"t", "x", 7⟩] rfl
    ⟨⟨"t", "x", 7⟩, List.mem_singleton.mpr rfl, rfl, rfl⟩,
   claim_C10.2.2 none "y" 7 [⟨"t", "x", 7⟩] rfl
    (fun t ht => by
      rw [List.mem_singleton] at ht
      subst ht
      rintro ⟨-, hs⟩
      exact absurd hs (by decide))⟩

end Sentry
